import Mathlib

/-!
Shallow embedding of the generation-session client of the `vibe` repository.
The definitions mirror the TypeScript sources: the auth token cache
(`use-generation-session.ts`), the conversation ledger
(`generation/utils/conversation.ts`), the project state
(`use-project-state.ts`), the websocket dispatcher and its handlers
(`generation/services/websocket.ts` and `use-project-websocket.ts`), the
file service (`generation/services/file-service.ts`) and the project
actions (`use-project-actions.ts`).  Transport payloads are modelled as
parsed JSON values; machine time is passed explicitly; asynchronous code
is modelled by explicit state passing in the order the single-threaded
event loop executes it.
-/

namespace Vibe

/-- A parsed JSON value: the domain of `JSON.parse` results and
`response.json()` bodies. -/
inductive JsonV where
  | null
  | bool (b : Bool)
  | num (n : Int)
  | str (s : String)
  | arr (elems : List JsonV)
  | obj (fields : List (String × JsonV))

/-- Is the value JSON `null`?  (Property access on `null` throws in JS.) -/
def JsonV.isNull : JsonV → Bool
  | .null => true
  | _ => false

/-- Plain JS property access `x.k` on a non-null value: `some v` when the
field is present on an object, `none` (i.e. `undefined`) otherwise.
Accessing a field of a primitive yields `undefined` without throwing. -/
def oget : JsonV → String → Option JsonV
  | .obj fields, k => (fields.find? (fun f => f.fst == k)).map (·.snd)
  | _, _ => none

/-- Optional-chaining access `x?.k`: `undefined` when the receiver is
`null`/`undefined`, plain access otherwise. -/
def pget (j : Option JsonV) (k : String) : Option JsonV :=
  match j with
  | some v => if v.isNull then none else oget v k
  | none => none

/-- Nullish coalescing `a ?? b`. -/
def nullish (a b : Option JsonV) : Option JsonV :=
  match a with
  | none => b
  | some .null => b
  | some v => some v

/-- JS truthiness of a possibly-undefined value. -/
def truthy : Option JsonV → Bool
  | none => false
  | some .null => false
  | some (.bool b) => b
  | some (.num n) => n != 0
  | some (.str s) => s != ""
  | some (.arr _) => true
  | some (.obj _) => true

/-- `typeof x === "string"` refinement: the string content when the value
is a JS string, `none` otherwise. -/
def asString : Option JsonV → Option String
  | some (.str s) => some s
  | _ => none

/-- JS string coercion (as used when a value becomes an object key). -/
def jstr : JsonV → String
  | .null => "null"
  | .bool true => "true"
  | .bool false => "false"
  | .num n => toString n
  | .str s => s
  | .arr _ => ""
  | .obj _ => "object Object"

/-- JS `String.prototype.trim`: strips leading and trailing whitespace
(structural, so that it evaluates by `decide`). -/
def jsTrim (s : String) : String :=
  ⟨((s.data.dropWhile Char.isWhitespace).reverse.dropWhile
      Char.isWhitespace).reverse⟩

/-- `x === false` strict equality test. -/
def isFalseV : Option JsonV → Bool
  | some (.bool false) => true
  | _ => false

/-! ### String-keyed records (JS plain objects used as maps) -/

/-- Lookup in a string-keyed record. -/
def rlookup : List (String × String) → String → Option String
  | [], _ => none
  | (k2, v) :: rest, k => if k2 == k then some v else rlookup rest k

/-- JS object assignment `r[k] = v`: replaces in place, else appends. -/
def rset : List (String × String) → String → String → List (String × String)
  | [], k, v => [(k, v)]
  | (k2, v2) :: rest, k, v =>
    if k2 == k then (k, v) :: rest else (k2, v2) :: rset rest k v

/-- The keys of a record. -/
def rkeys (r : List (String × String)) : List String := r.map Prod.fst

/-- First-occurrence deduplication, as `Array.from(new Set(xs))`. -/
def dedupFirst (seen : List String) : List String → List String
  | [] => []
  | x :: xs =>
    if seen.contains x then dedupFirst seen xs
    else x :: dedupFirst (x :: seen) xs

/-- Insert into a lexicographically sorted list of strings. -/
def insertSorted (s : String) : List String → List String
  | [] => [s]
  | t :: ts => if s ≤ t then s :: t :: ts else t :: insertSorted s ts

/-- Lexicographic sort of strings, as the JS default `Array.sort()`. -/
def sortStrings : List String → List String
  | [] => []
  | x :: xs => insertSorted x (sortStrings xs)

/-! ### Auth token cache (`use-generation-session.ts`)

The module-level mutable cells `cachedToken`, `cachedAtMs`,
`inflightTokenPromise` (represented by the id of the pending promise) and
`cooldownUntilMs`. -/

structure TokenCacheState where
  cachedToken : Option String
  cachedAtMs : Nat
  cooldownUntilMs : Nat
  inflight : Option Nat
  deriving Repr, DecidableEq

/-- `TOKEN_TTL_MS` : token considered fresh for 30s. -/
def TOKEN_TTL_MS : Nat := 30000

/-- `COOL_DOWN_MS_DEFAULT` : 30s cooldown after an HTTP 429. -/
def COOL_DOWN_MS_DEFAULT : Nat := 30000

/-- Truthiness of a JS string-or-missing value (used for `cachedToken`,
generation ids, and other string cells). -/
def strTruthy : Option String → Bool
  | none => false
  | some s => s != ""

/-- What one call to `getJWTToken` did during its synchronous prefix. -/
inductive TokenCallResult where
  | immediate (tok : Option String)
  | joined (pid : Nat)
  | started (pid : Nat)
  deriving Repr, DecidableEq

/-- The synchronous prefix of `getJWTToken`: runs atomically on the JS
event loop, up to and including the creation of a fresh in-flight promise.
Returns the call's result, the updated cache cells, and the number of
underlying token requests issued (0 or 1). -/
def getJWTToken (hasSession : Bool) (now : Nat) (freshPid : Nat)
    (st : TokenCacheState) : TokenCallResult × TokenCacheState × Nat :=
  if !hasSession then (.immediate none, st, 0)
  else if now < st.cooldownUntilMs && strTruthy st.cachedToken then
    (.immediate st.cachedToken, st, 0)
  else if strTruthy st.cachedToken && now - st.cachedAtMs < TOKEN_TTL_MS then
    (.immediate st.cachedToken, st, 0)
  else
    match st.inflight with
    | some pid => (.joined pid, st, 0)
    | none => (.started freshPid, { st with inflight := some freshPid }, 1)

/-- The outcome of the underlying `authClient.token()` request. -/
inductive TokenFetchOutcome where
  | ok (token : Option JsonV)
  | errStatus (status : Int)
  | threw

/-- Settlement of the in-flight promise body: the `try`/`catch`/`finally`
inside `getJWTToken`.  Returns the promise's value and the cache state;
the `finally` clears the in-flight promise in every case. -/
def settleTokenFetch (outcome : TokenFetchOutcome) (now : Nat)
    (st : TokenCacheState) : Option String × TokenCacheState :=
  let cleared := fun (s : TokenCacheState) => { s with inflight := none }
  match outcome with
  | .errStatus status =>
    if status == 429 then
      (st.cachedToken,
        cleared { st with cooldownUntilMs := now + COOL_DOWN_MS_DEFAULT })
    else (st.cachedToken, cleared st)
  | .threw => (st.cachedToken, cleared st)
  | .ok token =>
    match asString token with
    | some t =>
      if truthy token then
        (some t, cleared { st with cachedToken := some t, cachedAtMs := now })
      else (st.cachedToken, cleared st)
    | none => (st.cachedToken, cleared st)

/-- `n` concurrent calls to `getJWTToken` (all with an active session, at
the same instant): each call's synchronous prefix runs to completion
before the next, and no settlement happens in between.  Returns the list
of per-call results, the final cache state, and the total number of
underlying requests issued.  Fresh promise ids are `pid0, pid0+1, …`. -/
def runConcurrentCalls (n : Nat) (now : Nat) (pid0 : Nat)
    (st : TokenCacheState) : List TokenCallResult × TokenCacheState × Nat :=
  match n with
  | 0 => ([], st, 0)
  | k + 1 =>
    let r := getJWTToken true now pid0 st
    let rest := runConcurrentCalls k now (pid0 + 1) r.2.1
    (r.1 :: rest.1, rest.2.1, r.2.2 + rest.2.2)

/-! ### Conversation ledger (`generation/utils/conversation.ts`) -/

structure ToolInvocation where
  id : String
  name : String
  state : String
  input : Option JsonV
  output : Option JsonV

/-- A content part of an assistant message: streamed text or a tool call. -/
inductive ContentPart where
  | text (text : String)
  | tool (id : String) (name : String) (state : String)
      (input : Option JsonV) (output : Option JsonV)

structure ConversationMessage where
  id : String
  role : String
  content : String
  status : String
  createdAt : Nat
  updatedAt : Nat
  projectId : Option String
  toolInvocations : Option (List ToolInvocation)
  contentParts : Option (List ContentPart)

/-- A partial update of a conversation message; `none` fields are absent
from the patch object (the spread keeps the previous value). -/
structure MessagePatch where
  content : Option String := none
  status : Option String := none
  projectId : Option (Option String) := none
  toolInvocations : Option (Option (List ToolInvocation)) := none
  contentParts : Option (Option (List ContentPart)) := none

/-- `updateMessage`: applies a patch (or updater function evaluated at the
current message), defaults `status` to the previous value, always bumps
`updatedAt`. -/
def updateMessage (now : Nat) (message : ConversationMessage)
    (patch : ConversationMessage → MessagePatch) : ConversationMessage :=
  let next := patch message
  let status := next.status.getD message.status
  { message with
    content := next.content.getD message.content
    projectId := next.projectId.getD message.projectId
    toolInvocations := next.toolInvocations.getD message.toolInvocations
    contentParts := next.contentParts.getD message.contentParts
    status := status
    updatedAt := now }

/-- `beginConversationTurn`: creates the optimistic user + assistant
placeholder pair, or `none` when the trimmed prompt is empty.  Message ids
and the timestamp are environment inputs. -/
def beginConversationTurn (now : Nat) (userId asstId : String)
    (userContent : String) (assistantIntro : String)
    (projectId : Option String) :
    Option (ConversationMessage × ConversationMessage) :=
  let trimmed := jsTrim userContent
  if trimmed == "" then none
  else
    some
      ({ id := userId, role := "user", content := trimmed,
         status := "complete", createdAt := now, updatedAt := now,
         projectId := projectId, toolInvocations := none,
         contentParts := none },
       { id := asstId, role := "assistant", content := assistantIntro,
         status := "pending", createdAt := now, updatedAt := now,
         projectId := projectId, toolInvocations := none,
         contentParts := none })

/-! ### Project session state (`use-project-state.ts`)

One record holding the React state cells, the refs, and the transport
handles (`wsRef` from `use-project-websocket.ts`, `pollingRef` from
`use-project-actions.ts`).  `wsConn`/`pollTimer` hold the project id the
channel was opened with, or `none` when closed/stopped. -/

structure LogEntry where
  type : String
  message : String

structure SessionState where
  prompt : String
  isGenerating : Bool
  logs : List LogEntry
  messages : List ConversationMessage
  activeTab : String
  previewUrl : String
  projectId : Option String
  projectStatus : Option String
  fileOrder : List String
  fileContents : List (String × String)
  selectedFile : Option String
  metadata : List (String × String)
  pendingFetches : List String
  statusErrorLogged : Bool
  filesErrorLogged : Bool
  basePreviewUrl : String
  previewUrlWithToken : String
  activeAssistantId : Option String
  currentGenerationId : Option String
  wsConn : Option String
  pollTimer : Option String

/-- `addLog`: appends a log entry. -/
def addLog (type : String) (message : String) (st : SessionState) :
    SessionState :=
  { st with logs := st.logs ++ [⟨type, message⟩] }

/-- The in-place patch of the message with id `i`
(`previous.map(m => m.id === id ? updateMessage(m, patch) : m)`). -/
def patchById (now : Nat) (i : String)
    (patch : ConversationMessage → MessagePatch)
    (l : List ConversationMessage) : List ConversationMessage :=
  l.map (fun m => if m.id == i then updateMessage now m patch else m)

/-- `updateAssistantMessage`: patches the message with the given id in
place (no-op when the id is `null` or not found). -/
def updateAssistantMessage (now : Nat) (id : Option String)
    (patch : ConversationMessage → MessagePatch) (st : SessionState) :
    SessionState :=
  match id with
  | none => st
  | some i => { st with messages := patchById now i patch st.messages }

/-- `updateActiveAssistantMessage`: patches the message the
`activeAssistantMessageIdRef` points at. -/
def updateActiveAssistantMessage (now : Nat)
    (patch : ConversationMessage → MessagePatch) (st : SessionState) :
    SessionState :=
  updateAssistantMessage now st.activeAssistantId patch st

/-- Environment of the websocket handlers: the wall clock, the fresh
UUID used when a `tool_use` payload has no id, and the preview-URL
resolution (`toAbsolutePreviewUrl`, which attaches the auth token; its
internals are outside the claims and abstracted as a function). -/
structure WsEnv where
  now : Nat
  freshToolId : String
  resolvePreview : String → String

/-- `updatePreview` (from `use-project-websocket.ts`): clears the preview
state on a falsy argument, otherwise resolves the raw URL and stores it. -/
def updatePreview (env : WsEnv) (raw : Option JsonV) (st : SessionState) :
    SessionState :=
  if !truthy raw then
    { st with basePreviewUrl := "", previewUrlWithToken := "",
              previewUrl := "" }
  else
    { st with previewUrl := env.resolvePreview (jstr (raw.getD .null)) }

/-! ### Websocket handlers (`use-project-websocket.ts`, `wsHandlers`) -/

/-- `onStatusSnapshot`. -/
def onStatusSnapshot (env : WsEnv) (status : Option String)
    (previewUrl : Option JsonV) (st : SessionState) : SessionState :=
  let st1 := if strTruthy status then
    { st with projectStatus := some (status.getD "") } else st
  if truthy previewUrl then updatePreview env previewUrl st1 else st1

/-- `onStatusUpdated`: mirrors the backend status and maps it onto the
active assistant message's status. -/
def onStatusUpdated (env : WsEnv) (status : String) (st : SessionState) :
    SessionState :=
  let st1 := { st with projectStatus := some status }
  let st2 := addLog (if status == "ready" then "success" else "info")
    ("Status changed to " ++ status) st1
  updateActiveAssistantMessage env.now
    (fun _ =>
      { status := some (if status == "failed" then "error"
          else if status == "ready" then "complete" else "pending") })
    st2

/-- `onError`. -/
def onError (env : WsEnv) (message : String) (st : SessionState) :
    SessionState :=
  let st1 := addLog "error" message st
  let st2 := updateActiveAssistantMessage env.now
    (fun msg =>
      { content := some (if msg.content != "" then
          msg.content ++ "\n\n❌ Error: " ++ message else message),
        status := some "error" })
    st1
  { st2 with projectStatus := some "failed" }

/-- `onAssistantMessage`: appends streamed partial text to the active
assistant message's content and content parts. -/
def onAssistantMessage (env : WsEnv) (payload : JsonV) (st : SessionState) :
    SessionState :=
  let textV := if truthy (oget payload "text") then oget payload "text"
    else some (.str "")
  if truthy textV then
    let text := jstr (textV.getD .null)
    updateActiveAssistantMessage env.now
      (fun msg =>
        let existingParts := msg.contentParts.getD []
        { content := some (if msg.content != "" then
            jsTrim (msg.content ++ "\n" ++ text) else text),
          contentParts := some (some (existingParts ++ [.text text])),
          status := some "pending" })
      st
  else st

/-- `onToolUse`: inserts or merges a tool invocation (state
`input-available`) by id in the active assistant message. -/
def onToolUse (env : WsEnv) (payload : JsonV) (st : SessionState) :
    SessionState :=
  let toolId := if truthy (oget payload "id") then
    jstr ((oget payload "id").getD .null) else env.freshToolId
  let toolName := if truthy (oget payload "name") then
    jstr ((oget payload "name").getD .null) else "unknown"
  updateActiveAssistantMessage env.now
    (fun msg =>
      let existingTools := msg.toolInvocations.getD []
      let existingParts := msg.contentParts.getD []
      let existingIndex := existingTools.findIdx? (fun t => t.id == toolId)
      let newTools := match existingIndex with
        | some i => existingTools.mapIdx (fun j t =>
            if j == i then
              { t with id := toolId,
                       name := toolName,
                       state := "input-available",
                       input := oget payload "input" }
            else t)
        | none => existingTools ++
            [{ id := toolId, name := toolName, state := "input-available",
               input := oget payload "input", output := none }]
      let newParts := match existingIndex with
        | some _ => existingParts
        | none => existingParts ++
            [.tool toolId toolName "input-available"
              (oget payload "input") none]
      { toolInvocations := some (some newTools),
        contentParts := some (some newParts),
        status := some "pending" })
    st

/-- `onToolResult`: transitions the matching tool invocation (and content
part) to `output-available` and attaches the delivered content; returns
unchanged when `tool_use_id` is falsy. -/
def onToolResult (env : WsEnv) (payload : JsonV) (st : SessionState) :
    SessionState :=
  if !truthy (oget payload "tool_use_id") then st
  else
    let toolUseId := jstr ((oget payload "tool_use_id").getD .null)
    updateActiveAssistantMessage env.now
      (fun msg =>
        let newTools := (msg.toolInvocations.getD []).map (fun tool =>
          if tool.id == toolUseId then
            { tool with state := "output-available",
                        output := oget payload "content" }
          else tool)
        let newParts := (msg.contentParts.getD []).map (fun part =>
          match part with
          | .tool i n _ inp _ =>
            if i == toolUseId then
              .tool i n "output-available" inp (oget payload "content")
            else part
          | _ => part)
        { toolInvocations := some (some newTools),
          contentParts := some (some newParts) })
      st

/-- `onResultMessage`: marks the active assistant message complete and
demotes any tool invocation still in `input-available` to
`output-available`. -/
def onResultMessage (env : WsEnv) (st : SessionState) : SessionState :=
  updateActiveAssistantMessage env.now
    (fun msg =>
      { content := some msg.content,
        status := some "complete",
        toolInvocations := some (msg.toolInvocations.map (fun l =>
          l.map (fun tool =>
            if tool.state == "input-available" then
              { tool with state := "output-available" }
            else tool))),
        contentParts := some (msg.contentParts.map (fun l =>
          l.map (fun part =>
            match part with
            | .tool i n s inp out =>
              if s == "input-available" then
                .tool i n "output-available" inp out
              else part
            | _ => part))) })
    st

/-- The per-message filter installed by `startWebSocket`: drop the event
only when the current generation id is truthy, the event's generation id
is truthy, and they differ. -/
def filterEvent (cur gen : Option String) : Bool :=
  if strTruthy cur && strTruthy gen && cur != gen then false else true

/-- `handleWebSocketMessage` (from `generation/services/websocket.ts`,
dispatch on the discriminated `type` field) applied to an already-parsed
frame.  A `null` frame makes the unguarded `data.type` access throw into
the surrounding parse catch, which logs.  NOTE: the dispatcher has no
`tool_result` branch, so frames of that type fall through unhandled. -/
def handleWebSocketMessage (env : WsEnv) (frame : JsonV)
    (st : SessionState) : SessionState :=
  if frame.isNull then
    addLog "error" "Failed to parse stream message: TypeError" st
  else
    let generationId := asString (oget frame "generation_id")
    if !filterEvent st.currentGenerationId generationId then st
    else
      let ty := asString (oget frame "type")
      let payload := oget frame "payload"
      if ty == some "status_snapshot" then
        match asString (pget payload "status") with
        | some s => onStatusSnapshot env (some s) (pget payload "preview_url") st
        | none => onStatusSnapshot env none (pget payload "preview_url") st
      else if ty == some "status_updated" then
        match asString (nullish (pget payload "status") (oget frame "message")) with
        | some s => onStatusUpdated env s st
        | none => st
      else if ty == some "log_appended" then
        match asString (oget frame "message") with
        | some m => addLog "info" m st
        | none => st
      else if ty == some "preview_ready" then
        match asString (pget payload "preview_url") with
        | some p =>
          addLog "success" "Preview ready"
            (updatePreview env (some (.str p)) st)
        | none => st
      else if ty == some "error" then
        match asString (oget frame "message") with
        | some m => onError env m st
        | none => onError env "Generation error" st
      else if ty == some "project_created" then st
      else if ty == some "assistant_message" && truthy payload then
        onAssistantMessage env (payload.getD .null) st
      else if ty == some "tool_use" && truthy payload then
        onToolUse env (payload.getD .null) st
      else if ty == some "result_message" && truthy payload then
        onResultMessage env st
      else st

/-! ### File service (`generation/services/file-service.ts`) -/

/-- Result of an HTTP request: network/parse failure, non-2xx status, or
a 2xx response with a parsed JSON body. -/
inductive FetchResult where
  | netError (msg : String)
  | httpError (status : Nat)
  | ok (body : JsonV)

/-- Environment of the file service: the outcome of the content request
for each path. -/
structure FileEnv where
  fetchContent : String → Except String String

/-- `fetchFileContent`: guarded by the in-flight path set; on success
stores the content, on failure logs and leaves the content absent.  The
path is added to the in-flight set and removed again in the `finally`, so
its net effect on the set is nil.  Also returns the list of content
requests issued (empty or the singleton path). -/
def fetchFileContent (env : FileEnv) (path : String) (st : SessionState) :
    SessionState × List String :=
  if st.pendingFetches.contains path then (st, [])
  else
    match env.fetchContent path with
    | .ok content =>
      ({ st with fileContents := rset st.fileContents path content }, [path])
    | .error e =>
      (addLog "error" ("Failed to fetch file " ++ path ++ ": " ++ e) st,
        [path])

/-- The file-listing entry filter from `fetchProjectFiles`:
`!!entry && entry.is_dir === false && typeof entry.path === "string"`. -/
def isFileEntry (e : JsonV) : Bool :=
  truthy (some e) && isFalseV (oget e "is_dir")
    && (asString (oget e "path")).isSome

/-- The (string) `path` of a listing entry. -/
def entryPath (e : JsonV) : String := (asString (oget e "path")).getD ""

/-- The normalised `updated_at` stamp of a listing entry
(`typeof entry.updated_at === "string" ? entry.updated_at : ""`). -/
def entryStamp (e : JsonV) : String :=
  (asString (oget e "updated_at")).getD ""

/-- The per-entry staleness loop at the end of `fetchProjectFiles`:
fetch content if none is cached yet or the previously-seen stamp differs
from the server-reported one. -/
def fetchLoop (env : FileEnv) (entries : List JsonV)
    (prevMeta : List (String × String)) (st : SessionState) :
    SessionState × List String :=
  match entries with
  | [] => (st, [])
  | e :: rest =>
    let updatedAt := entryStamp e
    let existingStamp := (rlookup prevMeta (entryPath e)).getD ""
    let hasContent := (rlookup st.fileContents (entryPath e)).isSome
    let step := if !hasContent || existingStamp != updatedAt then
        fetchFileContent env (entryPath e) st
      else (st, [])
    let rest2 := fetchLoop env rest prevMeta step.1
    (rest2.1, step.2 ++ rest2.2)

/-- `fetchProjectFiles`: applies a file listing.  Non-2xx and thrown
errors are logged once per outage (gated by `filesErrorLogged`); a 2xx
response resets the gate, normalises the listing, publishes the sorted
deduplicated path order, prunes cached contents to listed paths, replaces
the metadata watermarks, and runs the staleness loop.  A JSON `null` body
makes the unguarded `data.files` access throw into the outer catch. -/
def fetchProjectFiles (env : FileEnv) (resp : FetchResult)
    (st : SessionState) : SessionState × List String :=
  match resp with
  | .netError msg =>
    (if !st.filesErrorLogged then
      { addLog "error" ("Failed to fetch files: " ++ msg) st with
        filesErrorLogged := true }
     else st, [])
  | .httpError status =>
    (if !st.filesErrorLogged then
      { addLog "error"
          ("Failed to fetch files (status " ++ toString status ++ ")") st with
        filesErrorLogged := true }
     else st, [])
  | .ok body =>
    let st1 := { st with filesErrorLogged := false }
    if body.isNull then
      ({ addLog "error" "Failed to fetch files: TypeError" st1 with
         filesErrorLogged := true }, [])
    else
      let items := match oget body "files" with
        | some (.arr xs) => xs
        | _ => []
      let fileEntries := items.filter isFileEntry
      let uniquePaths :=
        sortStrings (dedupFirst [] (fileEntries.map entryPath))
      let pruned := uniquePaths.filterMap (fun p =>
        (rlookup st1.fileContents p).map (fun v => (p, v)))
      let nextMetadata := fileEntries.foldl
        (fun acc e => rset acc (entryPath e) (entryStamp e)) []
      let previousMetadata := st1.metadata
      let st2 := { st1 with fileOrder := uniquePaths,
                            fileContents := pruned,
                            metadata := nextMetadata }
      fetchLoop env fileEntries previousMetadata st2

/-! ### Project actions (`use-project-actions.ts`, `use-project-state.ts`) -/

/-- `resetState` (from `use-project-state.ts`): clears all project-scoped
state and refs. -/
def resetState (st : SessionState) : SessionState :=
  { st with metadata := [], fileContents := [], pendingFetches := [],
            statusErrorLogged := false, filesErrorLogged := false,
            activeAssistantId := none, basePreviewUrl := "",
            previewUrlWithToken := "", projectId := none,
            projectStatus := none, fileOrder := [], selectedFile := none,
            previewUrl := "" }

/-- `resetFullState`: `resetState` plus clearing the conversation, logs,
prompt, generating flag and active tab. -/
def resetFullState (st : SessionState) : SessionState :=
  { resetState st with messages := [], logs := [], prompt := "",
                       isGenerating := false, activeTab := "code" }

/-- `stopPolling`. -/
def stopPolling (st : SessionState) : SessionState :=
  { st with pollTimer := none }

/-- `closeWebSocket`. -/
def closeWebSocket (st : SessionState) : SessionState :=
  { st with wsConn := none }

/-- `resetForNewGeneration`: stop polling, close the push channel, then
clear project state. -/
def resetForNewGeneration (st : SessionState) : SessionState :=
  resetState (closeWebSocket (stopPolling st))

/-- `resetForNewChat`: a full generation reset followed by the full state
reset. -/
def resetForNewChat (st : SessionState) : SessionState :=
  resetFullState (resetForNewGeneration st)

/-- `beginTurn` (from `use-project-actions.ts`): appends the optimistic
user/assistant pair and records the active assistant id; `none` with no
side effect when the trimmed prompt is empty. -/
def beginTurn (now : Nat) (userId asstId : String)
    (userContent assistantIntro : String) (projectIdValue : Option String)
    (st : SessionState) : Option (String × String) × SessionState :=
  match beginConversationTurn now userId asstId userContent assistantIntro
      projectIdValue with
  | none => (none, st)
  | some (u, a) =>
    (some (u.id, a.id),
      { st with messages := st.messages ++ [u, a],
                activeAssistantId := some a.id })

/-- Environment of the project actions: the wall clock, the two fresh
message ids `createMessageId` returns for this turn, `Date.parse`
(`none` models `NaN`), and the websocket environment used by
`updatePreview`. -/
structure ActionEnv where
  now : Nat
  userMsgId : String
  asstMsgId : String
  parseDate : String → Option Nat
  wsEnv : WsEnv

/-- The `catch` branch of the first-generation request: log the failure
and patch the assistant placeholder to an error bubble. -/
def generationCatch (env : ActionEnv) (asstId : String) (message : String)
    (st : SessionState) : SessionState :=
  updateAssistantMessage env.now (some asstId)
    (fun _ => { content := some message, status := some "error" })
    (addLog "error" message st)

/-- One step of the inline `contents` accumulation: a file with a truthy
`path` and a string `content` is stored under its (coerced) path key. -/
def inlineContentsStep (acc : List (String × String)) (f : JsonV) :
    List (String × String) :=
  if truthy (pget (some f) "path")
      && (asString (pget (some f) "content")).isSome then
    rset acc (jstr ((pget (some f) "path").getD .null))
      ((asString (pget (some f) "content")).getD "")
  else acc

/-- The inline-result branch of `triggerGeneration`: populate the file
cache and order from the response's `files` array, select the first file,
optionally adopt the inline preview URL, and close the assistant message
with a synthesized summary. -/
def applyInlineGeneration (env : ActionEnv) (asstId : String) (body : JsonV)
    (inlineFiles : List JsonV) (st : SessionState) : SessionState :=
  let nextOrder := inlineFiles.filterMap (fun f => asString (pget (some f) "path"))
  let uniquePaths := dedupFirst [] nextOrder
  let contents := inlineFiles.foldl inlineContentsStep []
  let st1 := { st with metadata := [], fileOrder := uniquePaths,
                       fileContents := contents,
                       selectedFile := uniquePaths.head? }
  let st2 := addLog "success"
    ("Generated " ++ toString inlineFiles.length ++ " files") st1
  let hasPreview := match asString (oget body "preview_url") with
    | some u => jsTrim u != ""
    | none => false
  let st3 := if hasPreview then
      { addLog "success" "Preview server started"
          (updatePreview env.wsEnv (oget body "preview_url") st2) with
        activeTab := "preview" }
    else st2
  let summarySegments :=
    (if inlineFiles.length > 0 then
      ["Generated " ++ toString inlineFiles.length ++
        (if inlineFiles.length == 1 then " file." else " files.")]
     else []) ++
    (if hasPreview then ["Preview is ready in the right panel."] else [])
  let summary := String.intercalate " " summarySegments
  updateAssistantMessage env.now (some asstId)
    (fun _ =>
      { content := some (if summary != "" then summary
          else "Generation complete."),
        status := some "complete" })
    st3

/-- Processing of the `POST /generate` response inside the `try` of the
first-generation branch; thrown errors go to `generationCatch`. -/
def handleGenerateResponse (env : ActionEnv) (asstId : String)
    (resp : FetchResult) (st : SessionState) : SessionState :=
  match resp with
  | .netError msg => generationCatch env asstId msg st
  | .httpError status =>
    generationCatch env asstId
      ("Generation failed (status " ++ toString status ++ ")") st
  | .ok body =>
    if body.isNull then
      generationCatch env asstId
        "TypeError: Cannot read properties of null" st
    else
      match asString (oget body "project_id") with
      | some pid =>
        let st1 := { st with projectId := some pid }
        let st2 := match asString (oget body "status") with
          | some s => { st1 with projectStatus := some s }
          | none => st1
        let st3 := addLog "success"
          ("Generation request accepted (project " ++ pid ++ ")") st2
        let st4 := updateAssistantMessage env.now (some asstId)
          (fun _ => { status := some "pending",
                      projectId := some (some pid) }) st3
        { st4 with wsConn := some pid, pollTimer := some pid,
                   activeTab := "code" }
      | none =>
        let inlineFiles := match oget body "files" with
          | some (.arr xs) => xs
          | _ => []
        if inlineFiles.length > 0 then
          applyInlineGeneration env asstId body inlineFiles st
        else
          generationCatch env asstId "Unexpected response from backend" st

/-- `typeof x === "object"` (true for objects, arrays and `null`). -/
def isObjType : JsonV → Bool
  | .obj _ => true
  | .arr _ => true
  | .null => true
  | _ => false

/-- Reconciliation of the optimistic user message with the server's
authoritative record in the follow-up branch. -/
def reconcileUserMessage (env : ActionEnv) (userMessageId : String)
    (existingProjectId : String) (um : JsonV) (st : SessionState) :
    SessionState :=
  let serverId := (asString (oget um "id")).getD userMessageId
  let createdAt := match asString (oget um "created_at") with
    | some s => env.parseDate s
    | none => some env.now
  let updatedAt := match asString (oget um "updated_at") with
    | some s => env.parseDate s
    | none => createdAt
  let statusFromServer := (asString (oget um "status")).getD "complete"
  let normalizedStatus :=
    if statusFromServer == "pending" || statusFromServer == "error" then
      statusFromServer
    else "complete"
  { st with messages := st.messages.map (fun m =>
      if m.id != userMessageId then m
      else
        { m with
          id := serverId,
          projectId := some ((asString (oget um "project_id")).getD
            existingProjectId),
          content := match asString (oget um "content") with
            | some c => if c.length > 0 then c else m.content
            | none => m.content,
          status := normalizedStatus,
          createdAt := createdAt.getD m.createdAt,
          updatedAt := updatedAt.getD m.updatedAt }) }

/-- The `catch` branch of the follow-up request. -/
def updateCatch (env : ActionEnv) (asstId : String) (message : String)
    (st : SessionState) : SessionState :=
  updateAssistantMessage env.now (some asstId)
    (fun _ => { content := some message, status := some "error" })
    (addLog "error" message st)

/-- Processing of the `POST /projects/id/messages` response inside the
`try` of the follow-up branch. -/
def handleUpdateResponse (env : ActionEnv)
    (userMessageId asstId existingProjectId : String) (resp : FetchResult)
    (st : SessionState) : SessionState :=
  match resp with
  | .netError msg => updateCatch env asstId msg st
  | .httpError status =>
    updateCatch env asstId
      ("Update failed (status " ++ toString status ++ ")") st
  | .ok body =>
    if body.isNull then
      updateCatch env asstId "TypeError: Cannot read properties of null" st
    else
      let st1 := match asString (oget body "status") with
        | some s => { st with projectStatus := some s }
        | none => st
      let st2 := match oget body "user_message" with
        | some um =>
          if truthy (some um) && isObjType um then
            reconcileUserMessage env userMessageId existingProjectId um st1
          else st1
        | none => st1
      let st3 := updateAssistantMessage env.now (some asstId)
        (fun _ => { status := some "pending",
                    projectId := some (some existingProjectId) }) st2
      addLog "success" "Update accepted"
        { st3 with wsConn := some existingProjectId, activeTab := "code" }

/-- `triggerGeneration`: the top-level action.  Returns the new state and
the list of REST endpoints called (empty when the request was rejected
locally).  The `finally` clearing `isGenerating` runs on every exit from
the `try`, including the successful returns. -/
def triggerGeneration (env : ActionEnv) (rawPrompt : String)
    (clearPrompt : Bool) (assistantIntro : String) (resp : FetchResult)
    (st : SessionState) : SessionState × List String :=
  let trimmedPrompt := jsTrim rawPrompt
  if trimmedPrompt == "" then
    (addLog "error" "Please enter a prompt" st, [])
  else
    match st.projectId with
    | none =>
      let st1 := resetForNewGeneration st
      match beginTurn env.now env.userMsgId env.asstMsgId trimmedPrompt
          assistantIntro none st1 with
      | (none, st2) => (st2, [])
      | (some ids, st2) =>
        let asstId := ids.2
        let st3 := if clearPrompt then { st2 with prompt := "" } else st2
        let st4 := { st3 with isGenerating := true, logs := [] }
        let st5 := addLog "info" ("Prompt: " ++ trimmedPrompt)
          (addLog "info" "Starting generation..." st4)
        let after := handleGenerateResponse env asstId resp st5
        ({ after with isGenerating := false }, ["POST /generate"])
    | some existingProjectId =>
      match beginTurn env.now env.userMsgId env.asstMsgId trimmedPrompt
          assistantIntro (some existingProjectId) st with
      | (none, st2) => (st2, [])
      | (some ids, st2) =>
        let userMessageId := ids.1
        let asstId := ids.2
        let st3 := if clearPrompt then { st2 with prompt := "" } else st2
        let st4 := { st3 with isGenerating := true }
        let st5 := addLog "info"
          ("Updating project " ++ existingProjectId ++ "...") st4
        let after := handleUpdateResponse env userMessageId asstId
          existingProjectId resp st5
        ({ after with isGenerating := false },
          ["POST /projects/" ++ existingProjectId ++ "/messages"])

/-! ### Concrete fixtures for witnesses and counterexamples -/

/-- A websocket environment with identity preview resolution. -/
def wsEnvC : WsEnv :=
  { now := 100, freshToolId := "t-fresh", resolvePreview := fun s => s }

/-- A concrete action environment. -/
def envC : ActionEnv :=
  { now := 100, userMsgId := "u1", asstMsgId := "a1",
    parseDate := fun _ => none, wsEnv := wsEnvC }

/-- A file-service environment whose content requests all succeed. -/
def fileEnvC : FileEnv := { fetchContent := fun _ => .ok "content" }

/-- The pristine session state (`useProjectState` initial values). -/
def emptyState : SessionState :=
  { prompt := "", isGenerating := false, logs := [], messages := [],
    activeTab := "code", previewUrl := "", projectId := none,
    projectStatus := none, fileOrder := [], fileContents := [],
    selectedFile := none, metadata := [], pendingFetches := [],
    statusErrorLogged := false, filesErrorLogged := false,
    basePreviewUrl := "", previewUrlWithToken := "",
    activeAssistantId := none, currentGenerationId := none,
    wsConn := none, pollTimer := none }

/-- A pending assistant placeholder with id `a1`. -/
def asstMsgC : ConversationMessage :=
  { id := "a1", role := "assistant", content := "", status := "pending",
    createdAt := 0, updatedAt := 0, projectId := none,
    toolInvocations := none, contentParts := none }

/-- A session in the middle of a turn: active generation `g`, one pending
assistant message `a1` as the active stream target. -/
def activeTurnState : SessionState :=
  { emptyState with currentGenerationId := some "g",
                    activeAssistantId := some "a1",
                    messages := [asstMsgC] }

/-- A `tool_use` frame with id `x`. -/
def toolUseFrameC : JsonV :=
  .obj [("type", .str "tool_use"),
        ("payload", .obj [("id", .str "x"), ("name", .str "write_file")])]

/-- A `tool_result` frame answering tool use `x` with content `ok`. -/
def toolResultFrameC : JsonV :=
  .obj [("type", .str "tool_result"),
        ("payload", .obj [("tool_use_id", .str "x"),
                          ("content", .str "ok")])]

/-- An `assistant_message` frame that carries an empty-string
`generation_id`. -/
def staleEmptyGenFrameC : JsonV :=
  .obj [("type", .str "assistant_message"),
        ("generation_id", .str ""),
        ("payload", .obj [("text", .str "hi")])]

/-- A `status_updated` frame announcing `ready`. -/
def statusReadyFrameC : JsonV :=
  .obj [("type", .str "status_updated"),
        ("payload", .obj [("status", .str "ready")])]

/-- The states of the tool invocations of every message, for observing
tool transitions. -/
def toolStatesOf (st : SessionState) : List (List (String × String)) :=
  st.messages.map (fun m =>
    (m.toolInvocations.getD []).map (fun t => (t.id, t.state)))

/-- The file-cache invariant from the spec: every key of `fileContents`
is listed in `fileOrder`. -/
def cacheInvariant (st : SessionState) : Prop :=
  ∀ k ∈ rkeys st.fileContents, k ∈ st.fileOrder

/-- A well-formed file-listing entry built from a `(path, updated_at)`
pair, the shape `GET /projects/id/files` returns. -/
def mkEntry (pt : String × String) : JsonV :=
  .obj [("path", .str pt.1), ("is_dir", .bool false),
        ("updated_at", .str pt.2)]

/-- A file-listing body built from `(path, updated_at)` pairs. -/
def mkListingBody (l : List (String × String)) : JsonV :=
  .obj [("files", .arr (l.map mkEntry))]

/-- A session with one listed, cached and stamped file `a.txt`. -/
def cachedOneFileState : SessionState :=
  { emptyState with fileOrder := ["a.txt"],
                    fileContents := [("a.txt", "hi")],
                    metadata := [("a.txt", "t1")] }

/-- The status field of the active assistant message, if any. -/
def activeAssistantStatus (st : SessionState) : Option String :=
  st.activeAssistantId.bind (fun i =>
    (st.messages.find? (fun m => m.id == i)).map (fun m => m.status))

/-! ### Theorems -/

/-- C7: `getJWTToken` returns `undefined` immediately, issuing no request,
when no session is active; and returns the cached token with no request
when either the cache is younger than the 30s TTL, or the call is inside
the 30s post-rate-limit cooldown and a cached token exists. -/
theorem getJWTToken_no_session_and_cache_hits
    (now freshPid : Nat) (st : TokenCacheState) :
    getJWTToken false now freshPid st = (.immediate none, st, 0) ∧
    (strTruthy st.cachedToken = true → now - st.cachedAtMs < TOKEN_TTL_MS →
      getJWTToken true now freshPid st = (.immediate st.cachedToken, st, 0)) ∧
    (strTruthy st.cachedToken = true → now < st.cooldownUntilMs →
      getJWTToken true now freshPid st = (.immediate st.cachedToken, st, 0))
    := by
  refine ⟨rfl, ?_, ?_⟩
  · intro h1 h2
    by_cases hc : now < st.cooldownUntilMs
    · simp [getJWTToken, h1, hc]
    · simp [getJWTToken, h1, h2, hc]
  · intro h1 h2
    simp [getJWTToken, h1, h2]

/-- Witness for the C7 theorem: a concrete fresh cached token is served
from the cache with no request. -/
theorem getJWTToken_no_session_and_cache_hits_witness :
    getJWTToken true 5 9 ⟨some "tok", 0, 0, none⟩ =
      (.immediate (some "tok"), ⟨some "tok", 0, 0, none⟩, 0) :=
  (getJWTToken_no_session_and_cache_hits 5 9
    ⟨some "tok", 0, 0, none⟩).2.1 (by decide) (by decide)

/-- With a pending in-flight promise and no cached token, a call joins the
existing promise and issues no request. -/
theorem getJWTToken_joins_inflight (now pid p : Nat) (st : TokenCacheState)
    (hin : st.inflight = some p) (htok : st.cachedToken = none) :
    getJWTToken true now pid st = (.joined p, st, 0) := by
  simp [getJWTToken, htok, strTruthy, hin]

/-- All calls made while a promise is in flight join it. -/
theorem runConcurrentCalls_joined (now p : Nat) :
    ∀ (k pid : Nat) (st : TokenCacheState), st.inflight = some p →
      st.cachedToken = none →
      runConcurrentCalls k now pid st = (List.replicate k (.joined p), st, 0)
  | 0, _, _, _, _ => by simp [runConcurrentCalls]
  | k+1, pid, st, hin, htok => by
    rw [runConcurrentCalls, getJWTToken_joins_inflight now pid p st hin htok,
      runConcurrentCalls_joined now p k (pid+1) st hin htok]
    simp [List.replicate]

/-- C6: starting with no cached token and no in-flight request, `k+1`
concurrent calls to `getJWTToken` issue exactly one underlying request:
the first creates the in-flight promise, every later call returns that
same promise, and settlement always clears the in-flight slot. -/
theorem tokenSingleFlight (k now pid0 : Nat) (st : TokenCacheState)
    (hin : st.inflight = none) (htok : st.cachedToken = none) :
    runConcurrentCalls (k+1) now pid0 st =
      (.started pid0 :: List.replicate k (.joined pid0),
        { st with inflight := some pid0 }, 1) ∧
    ∀ outcome now2 st2,
      ((settleTokenFetch outcome now2 st2).2).inflight = none := by
  constructor
  · have h1 : getJWTToken true now pid0 st =
        (.started pid0, { st with inflight := some pid0 }, 1) := by
      simp [getJWTToken, htok, strTruthy, hin]
    have h2 := runConcurrentCalls_joined now pid0 k (pid0+1)
      { st with inflight := some pid0 } rfl (by simp [htok])
    rw [runConcurrentCalls, h1, h2]
    rfl
  · intro outcome now2 st2
    cases outcome with
    | errStatus s =>
      by_cases h : s == 429 <;> simp [settleTokenFetch, h]
    | threw => simp [settleTokenFetch]
    | ok tok =>
      cases h : asString tok <;> simp [settleTokenFetch, h]
      split <;> rfl

/-- Witness for the C6 theorem: three concurrent calls share the promise
`0` and issue one request. -/
theorem tokenSingleFlight_witness :
    runConcurrentCalls (2+1) 7 0 ⟨none, 0, 0, none⟩ =
      (.started 0 :: List.replicate 2 (.joined 0),
        { (⟨none, 0, 0, none⟩ : TokenCacheState) with inflight := some 0 },
        1) ∧
    ∀ outcome now2 st2,
      ((settleTokenFetch outcome now2 st2).2).inflight = none :=
  tokenSingleFlight 2 7 0 ⟨none, 0, 0, none⟩ rfl rfl

/-- C9: a prompt that trims to empty: `beginConversationTurn` returns
`none` creating no placeholders, and `triggerGeneration` rejects locally
— no endpoint is called and the conversation ledger is unchanged — in
both the first-generation and the follow-up branch (the guard precedes
the branch on the project id). -/
theorem emptyPromptNoTurn (env : ActionEnv) (p intro2 : String)
    (pid : Option String) (clearP : Bool) (resp : FetchResult)
    (st : SessionState) (h : jsTrim p = "") :
    beginConversationTurn env.now env.userMsgId env.asstMsgId p intro2 pid
      = none ∧
    triggerGeneration env p clearP intro2 resp st =
      (addLog "error" "Please enter a prompt" st, []) ∧
    (triggerGeneration env p clearP intro2 resp st).1.messages = st.messages
    := by
  refine ⟨?_, ?_, ?_⟩
  all_goals simp [beginConversationTurn, triggerGeneration, h, addLog]

/-- Witness for the C9 theorem at a whitespace-only prompt. -/
theorem emptyPromptNoTurn_witness :
    beginConversationTurn envC.now envC.userMsgId envC.asstMsgId "  " "" none
      = none ∧
    triggerGeneration envC "  " true "" (.ok .null) emptyState =
      (addLog "error" "Please enter a prompt" emptyState, []) ∧
    (triggerGeneration envC "  " true "" (.ok .null) emptyState).1.messages
      = emptyState.messages :=
  emptyPromptNoTurn envC "  " "" none true (.ok .null) emptyState (by decide)

/-- C2 (code bug): a `tool_use` frame with id `x` puts the invocation into
`input-available`, but the following `tool_result` frame for `x` leaves
the session state completely unchanged: the dispatcher in
`services/websocket.ts` has no `tool_result` branch, so the delivered
output is dropped and the transition to `output-available` never
happens (the `onToolResult` handler defined in
`use-project-websocket.ts` is never invoked). -/
theorem toolResultFrameDropped :
    toolStatesOf (handleWebSocketMessage wsEnvC toolUseFrameC
        activeTurnState) = [[("x", "input-available")]] ∧
    handleWebSocketMessage wsEnvC toolResultFrameC
        (handleWebSocketMessage wsEnvC toolUseFrameC activeTurnState)
      = handleWebSocketMessage wsEnvC toolUseFrameC activeTurnState :=
  ⟨rfl, rfl⟩

/-- C1 counterexample: an `assistant_message` frame carrying the
empty-string `generation_id` differs from the active generation `g`, yet
the filter lets it through (an empty id is falsy) and it mutates the
conversation ledger. -/
theorem staleEmptyGenMutatesLedger :
    (handleWebSocketMessage wsEnvC staleEmptyGenFrameC
        activeTurnState).messages ≠ activeTurnState.messages := by
  intro h
  exact absurd (congrArg (List.map (fun m => m.content)) h) (by decide)

/-- C1 (amended): an event whose generation id and the session's current
generation id are both non-empty and differ is discarded whole — the
entire session state, in particular the conversation ledger and the file
cache, is unchanged. -/
theorem staleGenerationFrameIgnored (env : WsEnv) (frame : JsonV)
    (st : SessionState) (c g : String)
    (hc : st.currentGenerationId = some c) (hc0 : c ≠ "")
    (hg : asString (oget frame "generation_id") = some g) (hg0 : g ≠ "")
    (hne : g ≠ c) :
    handleWebSocketMessage env frame st = st := by
  have hnn : frame.isNull = false := by
    cases frame <;> first | rfl | (simp [oget, asString] at hg)
  have hf : filterEvent (some c) (some g) = false := by
    have h1 : strTruthy (some c) = true := by
      simp [strTruthy, bne_iff_ne, hc0]
    have h2 : strTruthy (some g) = true := by
      simp [strTruthy, bne_iff_ne, hg0]
    have h3 : ((some c : Option String) != some g) = true := by
      simp [bne_iff_ne, Option.some.injEq]
      exact fun hq => hne hq.symm
    unfold filterEvent
    rw [h1, h2, h3]
    rfl
  unfold handleWebSocketMessage
  rw [hnn]
  simp [hc, hg, hf]

/-- Witness for the amended C1 theorem at a concrete stale frame. -/
theorem staleGenerationFrameIgnored_witness :
    handleWebSocketMessage wsEnvC
      (.obj [("type", .str "assistant_message"),
             ("generation_id", .str "old"),
             ("payload", .obj [("text", .str "hi")])])
      activeTurnState = activeTurnState :=
  staleGenerationFrameIgnored wsEnvC _ activeTurnState "g" "old" rfl
    (by decide) rfl (by decide) (by decide)

/-- C10 counterexample: a 2xx listing body of JSON `null` lacks an
array-valued `files` field, yet handling it logs an error and leaves the
file order untouched (the unguarded `data.files` access throws). -/
theorem nullListingBodyLogsError :
    (fetchProjectFiles fileEnvC (.ok .null) cachedOneFileState).1.fileOrder
        = ["a.txt"] ∧
    (fetchProjectFiles fileEnvC (.ok .null)
        cachedOneFileState).1.logs.map (fun e => e.type) = ["error"] :=
  ⟨rfl, rfl⟩

/-- C10 (amended): a 2xx response whose body is not JSON `null` and has
no array-valued `files` field is treated as an empty listing: the file
order becomes empty, all cached contents are pruned, nothing is logged,
and no content fetch is issued. -/
theorem emptyListingResetsCache (env : FileEnv) (body : JsonV)
    (st : SessionState) (hnn : body.isNull = false)
    (hnf : ∀ xs, oget body "files" ≠ some (.arr xs)) :
    (fetchProjectFiles env (.ok body) st).1.fileOrder = [] ∧
    (fetchProjectFiles env (.ok body) st).1.fileContents = [] ∧
    (fetchProjectFiles env (.ok body) st).1.logs = st.logs ∧
    (fetchProjectFiles env (.ok body) st).2 = [] := by
  have hitems : (match oget body "files" with
      | some (.arr xs) => xs | _ => []) = ([] : List JsonV) := by
    cases hv : oget body "files" with
    | none => rfl
    | some v =>
      cases v with
      | null => rfl
      | bool b => rfl
      | num n => rfl
      | str s2 => rfl
      | arr xs => exact absurd hv (hnf xs)
      | obj fs => rfl
  refine ⟨?_, ?_, ?_, ?_⟩ <;>
    simp [fetchProjectFiles, hnn, hitems, fetchLoop, sortStrings,
      dedupFirst, addLog]

/-- Witness for the amended C10 theorem: a string-valued `files` field
empties the cache silently. -/
theorem emptyListingResetsCache_witness :
    (fetchProjectFiles fileEnvC (.ok (.obj [("files", .str "nope")]))
        cachedOneFileState).1.fileOrder = [] ∧
    (fetchProjectFiles fileEnvC (.ok (.obj [("files", .str "nope")]))
        cachedOneFileState).1.fileContents = [] ∧
    (fetchProjectFiles fileEnvC (.ok (.obj [("files", .str "nope")]))
        cachedOneFileState).1.logs = cachedOneFileState.logs ∧
    (fetchProjectFiles fileEnvC (.ok (.obj [("files", .str "nope")]))
        cachedOneFileState).2 = [] :=
  emptyListingResetsCache fileEnvC (.obj [("files", .str "nope")])
    cachedOneFileState rfl
    (by intro xs hx; simp [oget] at hx)

/-- A frame that fails the generation filter is dropped whole. -/
theorem handleWebSocketMessage_filtered (env : WsEnv) (frame : JsonV)
    (st : SessionState) (hnn : frame.isNull = false)
    (hfe : filterEvent st.currentGenerationId
      (asString (oget frame "generation_id")) = false) :
    handleWebSocketMessage env frame st = st := by
  unfold handleWebSocketMessage
  rw [hnn]
  simp [hfe]

/-- Reduction of the dispatcher on a `status_updated` frame that passes
the filter. -/
theorem handleWebSocketMessage_status_updated (env : WsEnv) (frame : JsonV)
    (st : SessionState) (hnn : frame.isNull = false)
    (hty : asString (oget frame "type") = some "status_updated")
    (hfe : filterEvent st.currentGenerationId
      (asString (oget frame "generation_id")) = true) :
    handleWebSocketMessage env frame st
      = match asString (nullish (pget (oget frame "payload") "status")
            (oget frame "message")) with
        | some s => onStatusUpdated env s st
        | none => st := by
  unfold handleWebSocketMessage
  rw [hnn, hty]
  simp [hfe]

/-- One unfolding step of `patchById`. -/
theorem patchById_cons (now : Nat) (i : String)
    (patch : ConversationMessage → MessagePatch) (m : ConversationMessage)
    (l : List ConversationMessage) :
    patchById now i patch (m :: l)
      = (if m.id == i then updateMessage now m patch else m)
          :: patchById now i patch l := rfl

/-- `updateMessage` never changes the message id. -/
theorem updateMessage_id (now : Nat) (m : ConversationMessage)
    (patch : ConversationMessage → MessagePatch) :
    (updateMessage now m patch).id = m.id := rfl

/-- Patching the status of the message with id `i` rewrites exactly the
found message's status. -/
theorem find?_update_status (now : Nat) (i v : String) :
    ∀ l : List ConversationMessage,
      ((patchById now i (fun _ => { status := some v }) l).find?
          (fun m => m.id == i)).map (fun m => m.status)
        = ((l.find? (fun m => m.id == i)).map (fun m => m.status)).map
            (fun _ => v)
  | [] => rfl
  | m :: l => by
    rw [patchById_cons]
    by_cases h : m.id = i
    · have hb : (m.id == i) = true := by simp [h]
      rw [if_pos hb]
      rw [List.find?_cons_of_pos (p := fun (m2 : ConversationMessage) => m2.id == i) _
          (by simp [updateMessage_id, hb]),
        List.find?_cons_of_pos (p := fun (m2 : ConversationMessage) => m2.id == i) _ hb]
      simp [updateMessage]
    · have hb : (m.id == i) = false := by simp [h]
      rw [if_neg (by simp [hb])]
      rw [List.find?_cons_of_neg (p := fun (m2 : ConversationMessage) => m2.id == i) _
          (by simp [updateMessage_id, hb]),
        List.find?_cons_of_neg (p := fun (m2 : ConversationMessage) => m2.id == i) _ (by simp [hb])]
      exact find?_update_status now i v l

/-- Field effects of `onStatusUpdated`. -/
theorem onStatusUpdated_fields (env : WsEnv) (s : String)
    (st : SessionState) :
    (onStatusUpdated env s st).projectStatus = some s ∧
    (onStatusUpdated env s st).activeAssistantId = st.activeAssistantId ∧
    (onStatusUpdated env s st).currentGenerationId
      = st.currentGenerationId ∧
    activeAssistantStatus (onStatusUpdated env s st)
      = (activeAssistantStatus st).map (fun _ =>
          if s == "failed" then "error"
          else if s == "ready" then "complete" else "pending") := by
  refine ⟨?_, ?_, ?_, ?_⟩ <;>
    cases h : st.activeAssistantId with
  | _ =>
    simp [onStatusUpdated, updateActiveAssistantMessage,
      updateAssistantMessage, addLog, h, activeAssistantStatus,
      find?_update_status]

/-- C4: handling the same `status_updated` event twice in immediate
succession leaves `projectStatus` and the active assistant message's
status field equal to the values obtained by handling it once (the
`failed → error`, `ready → complete`, otherwise `pending` mapping is
idempotent in those two fields). -/
theorem statusUpdatedIdempotent (env : WsEnv) (frame : JsonV)
    (st : SessionState)
    (hty : asString (oget frame "type") = some "status_updated") :
    (handleWebSocketMessage env frame
        (handleWebSocketMessage env frame st)).projectStatus
      = (handleWebSocketMessage env frame st).projectStatus ∧
    activeAssistantStatus (handleWebSocketMessage env frame
        (handleWebSocketMessage env frame st))
      = activeAssistantStatus (handleWebSocketMessage env frame st) := by
  have hnn : frame.isNull = false := by
    cases frame <;> first | rfl | (simp [oget, asString] at hty)
  cases hfe : filterEvent st.currentGenerationId
      (asString (oget frame "generation_id")) with
  | false =>
    have h1 := handleWebSocketMessage_filtered env frame st hnn hfe
    rw [h1, h1]
    exact ⟨rfl, rfl⟩
  | true =>
    cases hsv : asString (nullish (pget (oget frame "payload") "status")
        (oget frame "message")) with
    | none =>
      have h1 : handleWebSocketMessage env frame st = st := by
        rw [handleWebSocketMessage_status_updated env frame st hnn hty hfe,
          hsv]
      rw [h1, h1]
      exact ⟨rfl, rfl⟩
    | some sv =>
      have h1 : handleWebSocketMessage env frame st
          = onStatusUpdated env sv st := by
        rw [handleWebSocketMessage_status_updated env frame st hnn hty hfe,
          hsv]
      have hfe2 : filterEvent (onStatusUpdated env sv st).currentGenerationId
          (asString (oget frame "generation_id")) = true := by
        rw [(onStatusUpdated_fields env sv st).2.2.1]
        exact hfe
      have h2 : handleWebSocketMessage env frame (onStatusUpdated env sv st)
          = onStatusUpdated env sv (onStatusUpdated env sv st) := by
        rw [handleWebSocketMessage_status_updated env frame _ hnn hty hfe2,
          hsv]
      rw [h1, h2]
      constructor
      · rw [(onStatusUpdated_fields env sv _).1,
          (onStatusUpdated_fields env sv st).1]
      · rw [(onStatusUpdated_fields env sv _).2.2.2,
          (onStatusUpdated_fields env sv st).2.2.2]
        cases activeAssistantStatus st <;> rfl

/-- Witness for the C4 theorem: a concrete `ready` frame handled twice. -/
theorem statusUpdatedIdempotent_witness :
    (handleWebSocketMessage wsEnvC statusReadyFrameC
        (handleWebSocketMessage wsEnvC statusReadyFrameC
          activeTurnState)).projectStatus
      = (handleWebSocketMessage wsEnvC statusReadyFrameC
          activeTurnState).projectStatus ∧
    activeAssistantStatus (handleWebSocketMessage wsEnvC statusReadyFrameC
        (handleWebSocketMessage wsEnvC statusReadyFrameC activeTurnState))
      = activeAssistantStatus (handleWebSocketMessage wsEnvC
          statusReadyFrameC activeTurnState) :=
  statusUpdatedIdempotent wsEnvC statusReadyFrameC activeTurnState rfl

/-- `patchById` distributes over append. -/
theorem patchById_append (now : Nat) (i : String)
    (patch : ConversationMessage → MessagePatch)
    (l1 l2 : List ConversationMessage) :
    patchById now i patch (l1 ++ l2)
      = patchById now i patch l1 ++ patchById now i patch l2 := by
  simp [patchById]

/-- `patchById` is the identity on a list in which no message carries the
patched id. -/
theorem patchById_of_fresh (now : Nat) (i : String)
    (patch : ConversationMessage → MessagePatch) :
    ∀ l : List ConversationMessage, (∀ m ∈ l, m.id ≠ i) →
      patchById now i patch l = l
  | [], _ => rfl
  | m :: l, h => by
    rw [patchById_cons,
      if_neg (by simp [h m (List.mem_cons_self m l)]),
      patchById_of_fresh now i patch l
        (fun m2 hm => h m2 (List.mem_cons_of_mem m hm))]

/-- A 2xx `/generate` body with no string `project_id` and no non-empty
`files` array lands in the catch with the unexpected-response error (or
the TypeError for a null body). -/
theorem handleGenerateResponse_unexpected (env : ActionEnv)
    (asstId : String) (body : JsonV) (st : SessionState)
    (hnostr : asString (oget body "project_id") = none)
    (hnofiles : (match oget body "files" with
      | some (.arr xs) => xs | _ => ([] : List JsonV)) = []) :
    handleGenerateResponse env asstId (.ok body) st
      = generationCatch env asstId
          (if body.isNull then "TypeError: Cannot read properties of null"
           else "Unexpected response from backend") st := by
  by_cases hb : body.isNull = true
  · simp [handleGenerateResponse, hb]
  · have hb2 : body.isNull = false := by simpa using hb
    simp [handleGenerateResponse, hb2, hnostr, hnofiles]

/-- `jsTrim` in terms of `dropWhile` and `rdropWhile`. -/
theorem jsTrim_data (s : String) :
    (jsTrim s).data = List.rdropWhile Char.isWhitespace
      (List.dropWhile Char.isWhitespace s.data) := rfl

/-- JS trim is idempotent. -/
theorem jsTrim_idem (s : String) : jsTrim (jsTrim s) = jsTrim s := by
  have key : List.dropWhile Char.isWhitespace (jsTrim s).data
      = (jsTrim s).data := by
    rw [jsTrim_data, List.dropWhile_eq_self_iff]
    intro hl
    have hpre := List.rdropWhile_prefix Char.isWhitespace
      (List.dropWhile Char.isWhitespace s.data)
    have hlen : 0 < (List.dropWhile Char.isWhitespace s.data).length :=
      lt_of_lt_of_le hl hpre.length_le
    have hnot := List.dropWhile_get_zero_not Char.isWhitespace s.data hlen
    have hget := List.IsPrefix.getElem hpre (n := 0) hl
    simp only [List.get_eq_getElem] at hnot ⊢
    rw [hget]
    exact hnot
  apply String.ext
  show (jsTrim (jsTrim s)).data = (jsTrim s).data
  rw [jsTrim_data (jsTrim s), key, jsTrim_data s]
  exact List.rdropWhile_idempotent _ _

/-- C8: a 2xx `POST /generate` response whose body has neither a string
`project_id` nor a non-empty `files` array fails the turn: the assistant
placeholder is patched to status `error` carrying the failure reason as
its content, no push or poll transport is opened, and `isGenerating` ends
`false`. -/
theorem generationUnexpectedResponseFails (env : ActionEnv)
    (rawPrompt intro2 : String) (clearP : Bool) (body : JsonV)
    (st : SessionState)
    (hp : jsTrim rawPrompt ≠ "")
    (hpid : st.projectId = none)
    (hfresh : ∀ m ∈ st.messages, m.id ≠ env.asstMsgId)
    (hids : env.userMsgId ≠ env.asstMsgId)
    (hnostr : asString (oget body "project_id") = none)
    (hnofiles : (match oget body "files" with
      | some (.arr xs) => xs | _ => ([] : List JsonV)) = []) :
    (triggerGeneration env rawPrompt clearP intro2 (.ok body)
        st).1.isGenerating = false ∧
    (triggerGeneration env rawPrompt clearP intro2 (.ok body)
        st).1.wsConn = none ∧
    (triggerGeneration env rawPrompt clearP intro2 (.ok body)
        st).1.pollTimer = none ∧
    (triggerGeneration env rawPrompt clearP intro2 (.ok body)
        st).1.messages.map (fun m => (m.id, m.status, m.content))
      = st.messages.map (fun m => (m.id, m.status, m.content))
        ++ [(env.userMsgId, "complete", jsTrim rawPrompt),
            (env.asstMsgId, "error",
              if body.isNull then
                "TypeError: Cannot read properties of null"
              else "Unexpected response from backend")] := by
  have hguard : (jsTrim rawPrompt == "") = false := by simp [hp]
  cases clearP <;>
    refine ⟨?_, ?_, ?_, ?_⟩ <;>
    simp only [triggerGeneration, jsTrim_idem, hguard, Bool.false_eq_true,
      if_false, hpid, beginTurn, beginConversationTurn,
      resetForNewGeneration, resetState, closeWebSocket, stopPolling] <;>
    simp only [handleGenerateResponse_unexpected env env.asstMsgId body,
      hnostr, hnofiles] <;>
    simp [generationCatch, updateAssistantMessage, addLog, patchById_append,
      patchById_of_fresh env.now env.asstMsgId _ st.messages hfresh,
      patchById_cons, patchById, updateMessage, hids, Ne.symm hids] <;>
    (intro a ha; simp [hfresh a ha])


/-- Witness for the C8 theorem: a 2xx body with neither field fails the
turn with the unexpected-response error. -/
theorem generationUnexpectedResponseFails_witness :
    (triggerGeneration envC "hello" true "" (.ok (.obj [("oops", .num 1)]))
        emptyState).1.isGenerating = false ∧
    (triggerGeneration envC "hello" true "" (.ok (.obj [("oops", .num 1)]))
        emptyState).1.wsConn = none ∧
    (triggerGeneration envC "hello" true "" (.ok (.obj [("oops", .num 1)]))
        emptyState).1.pollTimer = none ∧
    (triggerGeneration envC "hello" true "" (.ok (.obj [("oops", .num 1)]))
        emptyState).1.messages.map (fun m => (m.id, m.status, m.content))
      = emptyState.messages.map (fun m => (m.id, m.status, m.content))
        ++ [(envC.userMsgId, "complete", jsTrim "hello"),
            (envC.asstMsgId, "error",
              if (JsonV.obj [("oops", .num 1)]).isNull then
                "TypeError: Cannot read properties of null"
              else "Unexpected response from backend")] :=
  generationUnexpectedResponseFails envC "hello" "" true
    (.obj [("oops", .num 1)]) emptyState (by decide) rfl
    (by intro m hm; simp [emptyState] at hm) (by decide) rfl rfl

/-- Membership in first-occurrence dedup. -/
theorem mem_dedupFirst (x : String) :
    ∀ (seen l : List String), x ∈ l → x ∉ seen → x ∈ dedupFirst seen l := by
  intro seen l
  induction l generalizing seen with
  | nil => intro hx _; cases hx
  | cons y l ih =>
    intro hx hs
    rw [dedupFirst]
    by_cases hy : y ∈ seen
    · rw [if_pos (by
        rw [List.contains_iff_exists_mem_beq]
        exact ⟨y, hy, by simp⟩)]
      rcases List.mem_cons.mp hx with h | h
      · exact absurd (h ▸ hy) hs
      · exact ih seen h hs
    · rw [if_neg (by
        simp only [List.contains_iff_exists_mem_beq]
        rintro ⟨z, hz, hbz⟩
        exact hy ((eq_of_beq hbz) ▸ hz))]
      rcases List.mem_cons.mp hx with h | h
      · exact h ▸ List.mem_cons_self _ _
      · by_cases hxy : x = y
        · exact hxy ▸ List.mem_cons_self _ _
        · refine List.mem_cons_of_mem _ (ih (y :: seen) h ?_)
          intro hmem
          rcases List.mem_cons.mp hmem with h2 | h2
          · exact hxy h2
          · exact hs h2

/-- `insertSorted` permutes a cons. -/
theorem insertSorted_perm (s : String) :
    ∀ l : List String, List.Perm (insertSorted s l) (s :: l)
  | [] => List.Perm.refl _
  | t :: ts => by
    rw [insertSorted]
    by_cases h : s ≤ t
    · rw [if_pos h]
    · rw [if_neg h]
      exact ((insertSorted_perm s ts).cons t).trans (List.Perm.swap s t ts)

/-- `sortStrings` is a permutation. -/
theorem sortStrings_perm :
    ∀ l : List String, List.Perm (sortStrings l) l
  | [] => List.Perm.refl _
  | x :: xs =>
    (insertSorted_perm x (sortStrings xs)).trans
      ((sortStrings_perm xs).cons x)

/-- Membership is preserved by `sortStrings`. -/
theorem mem_sortStrings (x : String) (l : List String) (h : x ∈ l) :
    x ∈ sortStrings l := ((sortStrings_perm l).mem_iff).mpr h

/-- The path of any listing entry is in the published order. -/
theorem entryPath_mem_uniquePaths (entries : List JsonV) (e : JsonV)
    (he : e ∈ entries) :
    entryPath e ∈ sortStrings (dedupFirst [] (entries.map entryPath)) :=
  mem_sortStrings _ _
    (mem_dedupFirst _ [] _ (List.mem_map_of_mem _ he) (by simp))

/-- Keys after a record assignment. -/
theorem rkeys_rset (k v : String) :
    ∀ r : List (String × String), ∀ k2 ∈ rkeys (rset r k v),
      k2 = k ∨ k2 ∈ rkeys r := by
  intro r
  induction r with
  | nil => intro k2 h; simp [rset, rkeys] at h; exact Or.inl h
  | cons kv rest ih =>
    intro k2 h
    rw [rset] at h
    by_cases hk : (kv.1 == k) = true
    · rw [if_pos hk] at h
      rcases List.mem_cons.mp h with h2 | h2
      · exact Or.inl h2
      · exact Or.inr (List.mem_cons_of_mem _ h2)
    · rw [if_neg hk] at h
      rcases List.mem_cons.mp h with h2 | h2
      · exact Or.inr (h2 ▸ List.mem_cons_self _ _)
      · rcases ih k2 h2 with h3 | h3
        · exact Or.inl h3
        · exact Or.inr (List.mem_cons_of_mem _ h3)

/-- `fetchFileContent` never changes the published file order. -/
theorem fetchFileContent_fileOrder (env : FileEnv) (path : String)
    (st : SessionState) :
    ((fetchFileContent env path st).1).fileOrder = st.fileOrder := by
  unfold fetchFileContent
  split
  · rfl
  · split <;> simp [addLog]

/-- A content fetch for a listed path preserves the cache invariant. -/
theorem fetchFileContent_inv (env : FileEnv) (path : String)
    (st : SessionState) (hinv : cacheInvariant st)
    (hmem : path ∈ st.fileOrder) :
    cacheInvariant (fetchFileContent env path st).1 := by
  unfold fetchFileContent
  split
  · exact hinv
  · split
    · intro k hk
      rcases rkeys_rset path _ st.fileContents k hk with h | h
      · exact h ▸ hmem
      · exact hinv k h
    · intro k hk
      exact hinv k hk

/-- The staleness loop preserves the cache invariant when every entry is
listed. -/
theorem fetchLoop_inv (env : FileEnv) (prevMeta : List (String × String)) :
    ∀ (entries : List JsonV) (st : SessionState), cacheInvariant st →
      (∀ e ∈ entries, entryPath e ∈ st.fileOrder) →
      cacheInvariant (fetchLoop env entries prevMeta st).1
  | [], _, hinv, _ => hinv
  | e :: rest, st, hinv, hmem => by
    rw [fetchLoop]
    simp only []
    by_cases hc : (!(rlookup st.fileContents (entryPath e)).isSome
        || (rlookup prevMeta (entryPath e)).getD "" != entryStamp e) = true
    · rw [if_pos hc]
      exact fetchLoop_inv env prevMeta rest _
        (fetchFileContent_inv env (entryPath e) st hinv
          (hmem e (List.mem_cons_self e rest)))
        (fun e2 he2 => by
          rw [fetchFileContent_fileOrder]
          exact hmem e2 (List.mem_cons_of_mem e he2))
    · rw [if_neg hc]
      exact fetchLoop_inv env prevMeta rest st hinv
        (fun e2 he2 => hmem e2 (List.mem_cons_of_mem e he2))

/-- Every key of the pruned contents is a listed path. -/
theorem mem_rkeys_prune (c : List (String × String)) :
    ∀ (ups : List String), ∀ k ∈ rkeys (ups.filterMap (fun p =>
      (rlookup c p).map (fun v => (p, v)))), k ∈ ups := by
  intro ups
  induction ups with
  | nil => intro k h; simp [rkeys] at h
  | cons q rest ih =>
    intro k h
    cases hv : rlookup c q with
    | none =>
      rw [List.filterMap_cons_none (by simp [hv])] at h
      exact List.mem_cons_of_mem _ (ih k h)
    | some v =>
      rw [List.filterMap_cons_some (b := (q, v)) (by simp [hv])] at h
      rcases List.mem_cons.mp h with h2 | h2
      · exact h2 ▸ List.mem_cons_self _ _
      · exact List.mem_cons_of_mem _ (ih k h2)

/-- `fetchProjectFiles` preserves the cache invariant. -/
theorem fetchProjectFiles_inv (env : FileEnv) (resp : FetchResult)
    (st : SessionState) (hinv : cacheInvariant st) :
    cacheInvariant (fetchProjectFiles env resp st).1 := by
  cases resp with
  | netError msg =>
    by_cases h : st.filesErrorLogged <;>
      simp [fetchProjectFiles, h, addLog, cacheInvariant] <;>
      exact fun k hk => hinv k hk
  | httpError status =>
    by_cases h : st.filesErrorLogged <;>
      simp [fetchProjectFiles, h, addLog, cacheInvariant] <;>
      exact fun k hk => hinv k hk
  | ok body =>
    by_cases hb : body.isNull = true
    · simp [fetchProjectFiles, hb, addLog, cacheInvariant]
      exact fun k hk => hinv k hk
    · have hb2 : body.isNull = false := by simpa using hb
      simp only [fetchProjectFiles, hb2, Bool.false_eq_true, if_false]
      refine fetchLoop_inv env _ _ _ ?_ ?_
      · intro k hk
        exact mem_rkeys_prune _ _ k hk
      · intro e he
        exact entryPath_mem_uniquePaths _ e he

/-- `updatePreview` never touches the file cache. -/
theorem updatePreview_fileContents (env : WsEnv) (raw : Option JsonV)
    (st : SessionState) :
    (updatePreview env raw st).fileContents = st.fileContents := by
  unfold updatePreview
  split <;> rfl

/-- `updatePreview` never touches the file order. -/
theorem updatePreview_fileOrder (env : WsEnv) (raw : Option JsonV)
    (st : SessionState) :
    (updatePreview env raw st).fileOrder = st.fileOrder := by
  unfold updatePreview
  split <;> rfl

/-- The file cache and order produced by `applyInlineGeneration`. -/
theorem applyInline_files (env : ActionEnv) (asstId : String)
    (body : JsonV) (files : List JsonV) (st : SessionState) :
    (applyInlineGeneration env asstId body files st).fileContents
        = files.foldl inlineContentsStep [] ∧
    (applyInlineGeneration env asstId body files st).fileOrder
        = dedupFirst [] (files.filterMap (fun f =>
            asString (pget (some f) "path"))) := by
  unfold applyInlineGeneration
  simp only [updateAssistantMessage, addLog]
  split
  · constructor <;>
      simp [updatePreview_fileContents, updatePreview_fileOrder, addLog]
  · constructor <;> rfl

/-- Keys accumulated by the inline contents fold stay inside `u` when
every present truthy path has its coerced key in `u`. -/
theorem inline_fold_keys (u : List String) :
    ∀ (files : List JsonV) (acc : List (String × String)),
      (∀ f ∈ files, ∀ v, pget (some f) "path" = some v →
        truthy (some v) = true → jstr v ∈ u) →
      (∀ k ∈ rkeys acc, k ∈ u) →
      ∀ k ∈ rkeys (files.foldl inlineContentsStep acc), k ∈ u
  | [], _, _, hacc => hacc
  | f :: rest, acc, hf, hacc => by
    rw [List.foldl_cons]
    refine inline_fold_keys u rest (inlineContentsStep acc f)
      (fun f2 h2 => hf f2 (List.mem_cons_of_mem f h2)) ?_
    intro k hk
    unfold inlineContentsStep at hk
    by_cases hc : (truthy (pget (some f) "path")
        && (asString (pget (some f) "content")).isSome) = true
    · rw [if_pos hc] at hk
      cases hv : pget (some f) "path" with
      | none =>
        rw [hv] at hc
        simp [truthy] at hc
      | some v =>
        rw [hv] at hk
        rcases rkeys_rset _ _ acc k hk with h | h
        · subst h
          refine hf f (List.mem_cons_self f rest) v hv ?_
          rw [hv] at hc
          simp only [Bool.and_eq_true] at hc
          exact hc.1
        · exact hacc k h
    · rw [if_neg hc] at hk
      exact hacc k hk

/-- Inline generation preserves the cache invariant when every inline
file's `path` field is a string. -/
theorem applyInlineGeneration_inv (env : ActionEnv) (asstId : String)
    (body : JsonV) (files : List JsonV) (st : SessionState)
    (hstr : ∀ f ∈ files, ∀ v, pget (some f) "path" = some v →
      ∃ s2, v = JsonV.str s2) :
    cacheInvariant (applyInlineGeneration env asstId body files st) := by
  intro k hk
  rw [(applyInline_files env asstId body files st).2]
  rw [(applyInline_files env asstId body files st).1] at hk
  refine inline_fold_keys _ files [] ?_ (by simp [rkeys]) k hk
  intro f hf v hv htr
  rcases hstr f hf v hv with ⟨s2, rfl⟩
  exact mem_dedupFirst _ [] _
    (List.mem_filterMap.mpr ⟨f, hf, by rw [hv]; rfl⟩) (by simp)

/-- C5 counterexample: applying an inline generation result whose single
file has the numeric path `1` (truthy but not a string) stores its
content under the coerced key "1" while `fileOrder` becomes empty — the
invariant fails after the operation. -/
theorem inlineNumericPathBreaksInvariant :
    ¬ cacheInvariant (triggerGeneration envC "hello" true ""
      (.ok (.obj [("files", .arr
        [.obj [("path", .num 1), ("content", .str "x")]])]))
      emptyState).1 := by
  intro h
  exact absurd (h "1" (by decide)) (by decide)

/-- C5 (amended): the cache invariant — every key of `fileContents` is an
element of `fileOrder` — is preserved by applying a file listing, by the
completion of an individual content fetch for a listed path, and by every
reset; applying inline generation results preserves it provided every
inline file's present `path` field is a string. -/
theorem cacheInvariantPreserved :
    (∀ env resp st, cacheInvariant st →
      cacheInvariant (fetchProjectFiles env resp st).1) ∧
    (∀ env path st, cacheInvariant st → path ∈ st.fileOrder →
      cacheInvariant (fetchFileContent env path st).1) ∧
    (∀ st, cacheInvariant (resetState st)) ∧
    (∀ st, cacheInvariant (resetForNewGeneration st)) ∧
    (∀ st, cacheInvariant (resetForNewChat st)) ∧
    (∀ env asstId body files st,
      (∀ f ∈ files, ∀ v, pget (some f) "path" = some v →
        ∃ s2, v = JsonV.str s2) →
      cacheInvariant (applyInlineGeneration env asstId body files st)) :=
  ⟨fetchProjectFiles_inv, fetchFileContent_inv,
   fun st k hk => by simp [resetState, rkeys] at hk,
   fun st k hk => by
     simp [resetForNewGeneration, resetState, closeWebSocket, stopPolling,
       rkeys] at hk,
   fun st k hk => by
     simp [resetForNewChat, resetFullState, resetForNewGeneration,
       resetState, closeWebSocket, stopPolling, rkeys] at hk,
   applyInlineGeneration_inv⟩

/-- Witness for the amended C5 theorem at concrete inputs. -/
theorem cacheInvariantPreserved_witness :
    cacheInvariant (fetchProjectFiles fileEnvC
      (.ok (mkListingBody [("a.txt", "t1")])) emptyState).1 ∧
    cacheInvariant (applyInlineGeneration envC "a1" (.obj [])
      [.obj [("path", .str "a.txt"), ("content", .str "hi")]]
      emptyState) :=
  ⟨cacheInvariantPreserved.1 fileEnvC _ emptyState
    (fun k hk => by simp [emptyState, rkeys] at hk),
   cacheInvariantPreserved.2.2.2.2.2 envC "a1" _ _ emptyState (by
     intro f hf v hv
     simp only [List.mem_singleton] at hf
     subst hf
     exact ⟨"a.txt", (Option.some.inj hv).symm⟩)⟩

/-- Elements of a first-occurrence dedup avoid the seen set. -/
theorem dedupFirst_not_seen :
    ∀ (seen l : List String) (x : String), x ∈ dedupFirst seen l →
      x ∉ seen
  | seen, [], x, hx => by rw [dedupFirst] at hx; cases hx
  | seen, y :: l, x, hx => by
    rw [dedupFirst] at hx
    by_cases hy : (seen.contains y) = true
    · rw [if_pos hy] at hx
      exact dedupFirst_not_seen seen l x hx
    · rw [if_neg hy] at hx
      rcases List.mem_cons.mp hx with h | h
      · subst h
        intro hmem
        exact hy (by
          rw [List.contains_iff_exists_mem_beq]
          exact ⟨x, hmem, by simp⟩)
      · intro hmem
        exact dedupFirst_not_seen (y :: seen) l x h
          (List.mem_cons_of_mem y hmem)

/-- First-occurrence dedup has no duplicates. -/
theorem dedupFirst_nodup :
    ∀ (seen l : List String), (dedupFirst seen l).Nodup
  | _, [] => List.nodup_nil
  | seen, y :: l => by
    rw [dedupFirst]
    by_cases hy : (seen.contains y) = true
    · rw [if_pos hy]
      exact dedupFirst_nodup seen l
    · rw [if_neg hy]
      refine List.nodup_cons.mpr ⟨?_, dedupFirst_nodup (y :: seen) l⟩
      intro hmem
      exact dedupFirst_not_seen (y :: seen) l y hmem
        (List.mem_cons_self y seen)

/-- Assignment at another key does not change a lookup. -/
theorem rlookup_rset_ne (k v q : String) (hne : q ≠ k) :
    ∀ r : List (String × String), rlookup (rset r k v) q = rlookup r q
  | [] => by
    have hkq : (k == q) = false :=
      beq_eq_false_iff_ne.mpr (fun h => hne h.symm)
    simp only [rset, rlookup, hkq, Bool.false_eq_true, if_false]
  | (k2, v2) :: rest => by
    by_cases h2 : (k2 == k) = true
    · have hk2 : k2 = k := by simpa using h2
      subst hk2
      have hq : (k2 == q) = false :=
        beq_eq_false_iff_ne.mpr (fun h => hne h.symm)
      rw [rset, if_pos h2]
      simp only [rlookup, hq, Bool.false_eq_true, if_false]
    · rw [rset, if_neg h2]
      by_cases h3 : (k2 == q) = true
      · simp only [rlookup, h3, if_true]
      · simp only [rlookup, h3, Bool.false_eq_true, if_false]
        exact rlookup_rset_ne k v q hne rest

/-- Looking a pruned record up outside the listed paths yields nothing. -/
theorem rlookup_prune_not_mem (c : List (String × String)) :
    ∀ (ups : List String) (p : String), p ∉ ups →
      rlookup (ups.filterMap (fun q =>
        (rlookup c q).map (fun v => (q, v)))) p = none
  | [], p, _ => rfl
  | q :: rest, p, hp => by
    have hpq : p ≠ q := fun h => hp (h ▸ List.mem_cons_self q rest)
    have hprest : p ∉ rest := fun h => hp (List.mem_cons_of_mem q h)
    cases hv : rlookup c q with
    | none =>
      rw [List.filterMap_cons_none (by simp [hv])]
      exact rlookup_prune_not_mem c rest p hprest
    | some v =>
      rw [List.filterMap_cons_some (b := (q, v)) (by simp [hv])]
      have hqp : (q == p) = false :=
        beq_eq_false_iff_ne.mpr (fun h => hpq h.symm)
      simp only [rlookup, hqp, Bool.false_eq_true, if_false]
      exact rlookup_prune_not_mem c rest p hprest

/-- Pruning preserves lookups at listed paths when the listing has no
duplicates. -/
theorem rlookup_prune_mem (c : List (String × String)) :
    ∀ (ups : List String), ups.Nodup → ∀ p ∈ ups,
      rlookup (ups.filterMap (fun q =>
        (rlookup c q).map (fun v => (q, v)))) p = rlookup c p
  | [], _, p, hp => absurd hp (by simp)
  | q :: rest, hnd, p, hp => by
    have hq_rest : q ∉ rest := (List.nodup_cons.mp hnd).1
    have hnd2 : rest.Nodup := (List.nodup_cons.mp hnd).2
    by_cases hpq : p = q
    · subst hpq
      cases hv : rlookup c p with
      | none =>
        rw [List.filterMap_cons_none (by simp [hv])]
        rw [rlookup_prune_not_mem c rest p hq_rest]
      | some v =>
        rw [List.filterMap_cons_some (b := (p, v)) (by simp [hv])]
        simp [rlookup, hv]
    · have hprest : p ∈ rest := by
        rcases List.mem_cons.mp hp with h | h
        · exact absurd h hpq
        · exact h
      cases hv : rlookup c q with
      | none =>
        rw [List.filterMap_cons_none (by simp [hv])]
        exact rlookup_prune_mem c rest hnd2 p hprest
      | some v =>
        rw [List.filterMap_cons_some (b := (q, v)) (by simp [hv])]
        have hqp : (q == p) = false :=
          beq_eq_false_iff_ne.mpr (fun h => hpq h.symm)
        simp only [rlookup, hqp, Bool.false_eq_true, if_false]
        exact rlookup_prune_mem c rest hnd2 p hprest

/-- `fetchFileContent` does not touch the in-flight set (net). -/
theorem fetchFileContent_pending (env : FileEnv) (path : String)
    (st : SessionState) :
    (fetchFileContent env path st).1.pendingFetches = st.pendingFetches := by
  unfold fetchFileContent
  split
  · rfl
  · split <;> simp [addLog]

/-- `fetchFileContent` changes the cache only at its own path. -/
theorem fetchFileContent_lookup_ne (env : FileEnv) (path q : String)
    (st : SessionState) (hne : q ≠ path) :
    rlookup (fetchFileContent env path st).1.fileContents q
      = rlookup st.fileContents q := by
  unfold fetchFileContent
  split
  · rfl
  · split
    · simp only []
      exact rlookup_rset_ne path _ q hne st.fileContents
    · simp [addLog]

/-- With an empty in-flight set and duplicate-free paths, the staleness
loop requests exactly the entries that have no cached content or a
changed stamp. -/
theorem fetchLoop_requests (env : FileEnv)
    (prevMeta : List (String × String)) :
    ∀ (entries : List JsonV) (st : SessionState),
      (entries.map entryPath).Nodup →
      st.pendingFetches = [] →
      (fetchLoop env entries prevMeta st).2
        = (entries.filter (fun e =>
            !(rlookup st.fileContents (entryPath e)).isSome
              || (rlookup prevMeta (entryPath e)).getD ""
                  != entryStamp e)).map entryPath
  | [], _, _, _ => rfl
  | e :: rest, st, hnd, hpend => by
    have hnd0 := List.nodup_cons.mp hnd
    have hnd2 : (rest.map entryPath).Nodup := hnd0.2
    have hne : ∀ e2 ∈ rest, entryPath e2 ≠ entryPath e := fun e2 he2 heq =>
      hnd0.1 (heq ▸ List.mem_map_of_mem entryPath he2)
    rw [fetchLoop]
    simp only []
    by_cases hc : (!(rlookup st.fileContents (entryPath e)).isSome
        || (rlookup prevMeta (entryPath e)).getD "" != entryStamp e) = true
    · rw [if_pos hc]
      have hreq : (fetchFileContent env (entryPath e) st).2
          = [entryPath e] := by
        unfold fetchFileContent
        rw [if_neg (by simp [hpend])]
        split <;> rfl
      have hrest := fetchLoop_requests env prevMeta rest
        (fetchFileContent env (entryPath e) st).1 hnd2
        (by rw [fetchFileContent_pending, hpend])
      have hrest2 : (fetchLoop env rest prevMeta
            (fetchFileContent env (entryPath e) st).1).2
          = (rest.filter (fun e2 =>
              !(rlookup st.fileContents (entryPath e2)).isSome
                || (rlookup prevMeta (entryPath e2)).getD ""
                    != entryStamp e2)).map entryPath := by
        rw [hrest]
        exact congrArg (List.map entryPath) (List.filter_congr
          (fun e2 he2 => by
            rw [fetchFileContent_lookup_ne env (entryPath e) (entryPath e2)
              st (hne e2 he2)]))
      rw [hreq, hrest2, List.filter_cons_of_pos (p := fun e2 =>
        !(rlookup st.fileContents (entryPath e2)).isSome
          || (rlookup prevMeta (entryPath e2)).getD "" != entryStamp e2) hc]
      rfl
    · rw [if_neg hc, List.filter_cons_of_neg (p := fun e2 =>
        !(rlookup st.fileContents (entryPath e2)).isSome
          || (rlookup prevMeta (entryPath e2)).getD "" != entryStamp e2) hc]
      simpa using fetchLoop_requests env prevMeta rest st hnd2 hpend

/-- Every constructed listing entry passes the file-entry filter. -/
theorem mkEntry_isFileEntry (l : List (String × String)) :
    (l.map mkEntry).filter isFileEntry = l.map mkEntry :=
  List.filter_eq_self.mpr (fun e he => by
    rcases List.mem_map.mp he with ⟨pt, _, rfl⟩
    rfl)

/-- The paths of constructed entries. -/
theorem mkEntry_paths (l : List (String × String)) :
    (l.map mkEntry).map entryPath = l.map Prod.fst := by
  rw [List.map_map]
  rfl

/-- For a well-formed listing with duplicate-free paths whose contents
are all cached, `fetchProjectFiles` issues a content request for exactly
the paths whose `updated_at` stamp differs from the stored watermark. -/
theorem fetchProjectFiles_listing_requests (env : FileEnv)
    (st : SessionState) (l : List (String × String))
    (hnd : (l.map Prod.fst).Nodup)
    (hpend : st.pendingFetches = [])
    (hcont : ∀ pt ∈ l, (rlookup st.fileContents pt.1).isSome = true) :
    (fetchProjectFiles env (.ok (mkListingBody l)) st).2
      = (l.filter (fun pt =>
          (rlookup st.metadata pt.1).getD "" != pt.2)).map Prod.fst := by
  have hnn : (mkListingBody l).isNull = false := rfl
  have hog : oget (mkListingBody l) "files"
      = some (.arr (l.map mkEntry)) := rfl
  simp only [fetchProjectFiles, hnn, Bool.false_eq_true, if_false, hog,
    mkEntry_isFileEntry, mkEntry_paths]
  have hup_nodup : (sortStrings (dedupFirst [] (l.map Prod.fst))).Nodup :=
    (sortStrings_perm _).nodup_iff.mpr (dedupFirst_nodup [] _)
  have hup_mem : ∀ pt ∈ l,
      pt.1 ∈ sortStrings (dedupFirst [] (l.map Prod.fst)) := fun pt hpt =>
    mem_sortStrings _ _ (mem_dedupFirst _ [] _
      (List.mem_map_of_mem Prod.fst hpt) (by simp))
  refine Eq.trans (fetchLoop_requests env st.metadata (l.map mkEntry) _
    (by rw [mkEntry_paths]; exact hnd) hpend) ?_
  simp only []
  rw [List.filter_map, List.map_map]
  have hcond : ∀ pt ∈ l,
      ((fun e => !(rlookup (List.filterMap (fun p =>
            (rlookup st.fileContents p).map (fun v => (p, v)))
            (sortStrings (dedupFirst [] (l.map Prod.fst))))
            (entryPath e)).isSome
          || (rlookup st.metadata (entryPath e)).getD ""
              != entryStamp e) ∘ mkEntry) pt
        = ((rlookup st.metadata pt.1).getD "" != pt.2) := by
    intro pt hpt
    show (!(rlookup (List.filterMap (fun p =>
          (rlookup st.fileContents p).map (fun v => (p, v)))
          (sortStrings (dedupFirst [] (l.map Prod.fst)))) pt.1).isSome
        || (rlookup st.metadata pt.1).getD "" != pt.2) = _
    rw [rlookup_prune_mem st.fileContents _ hup_nodup pt.1
      (hup_mem pt hpt), hcont pt hpt]
    rfl
  rw [List.filter_congr hcond]
  rfl

/-- C3: (1) a listing identical to the previously applied one (same
paths, same `updated_at` stamps) with every listed path cached triggers
no content fetch; (2) a listing differing only in one file's stamp
triggers a content fetch for exactly that file. -/
theorem fileCacheStalenessRule :
    (∀ (env : FileEnv) (st : SessionState) (l : List (String × String)),
      (l.map Prod.fst).Nodup →
      st.pendingFetches = [] →
      (∀ pt ∈ l, (rlookup st.metadata pt.1).getD "" = pt.2) →
      (∀ pt ∈ l, (rlookup st.fileContents pt.1).isSome = true) →
      (fetchProjectFiles env (.ok (mkListingBody l)) st).2 = []) ∧
    (∀ (env : FileEnv) (st : SessionState)
        (l1 l2 : List (String × String)) (p t : String),
      ((l1 ++ (p, t) :: l2).map Prod.fst).Nodup →
      st.pendingFetches = [] →
      (∀ pt ∈ l1 ++ l2, (rlookup st.metadata pt.1).getD "" = pt.2) →
      (∀ pt ∈ l1 ++ (p, t) :: l2,
        (rlookup st.fileContents pt.1).isSome = true) →
      (rlookup st.metadata p).getD "" ≠ t →
      (fetchProjectFiles env (.ok (mkListingBody (l1 ++ (p, t) :: l2)))
        st).2 = [p]) := by
  constructor
  · intro env st l hnd hpend hmeta hcont
    rw [fetchProjectFiles_listing_requests env st l hnd hpend hcont]
    rw [List.filter_eq_nil_iff.mpr (fun pt hpt => by simp [hmeta pt hpt])]
    rfl
  · intro env st l1 l2 p t hnd hpend hmeta hcont hst
    rw [fetchProjectFiles_listing_requests env st _ hnd hpend hcont]
    rw [List.filter_append]
    rw [List.filter_eq_nil_iff.mpr (fun pt hpt => by
      simp [hmeta pt (List.mem_append_left l2 hpt)])]
    rw [List.filter_cons_of_pos (by simpa using hst)]
    rw [List.filter_eq_nil_iff.mpr (fun pt hpt => by
      simp [hmeta pt (List.mem_append_right l1 hpt)])]
    rfl

/-- Witness for the C3 theorem: re-listing `a.txt` with its old stamp
fetches nothing; bumping the stamp fetches exactly `a.txt`. -/
theorem fileCacheStalenessRule_witness :
    (fetchProjectFiles fileEnvC (.ok (mkListingBody [("a.txt", "t1")]))
      cachedOneFileState).2 = [] ∧
    (fetchProjectFiles fileEnvC
      (.ok (mkListingBody ([] ++ ("a.txt", "t2") :: [])))
      cachedOneFileState).2 = ["a.txt"] :=
  ⟨fileCacheStalenessRule.1 fileEnvC cachedOneFileState [("a.txt", "t1")]
    (by decide) rfl (by decide) (by decide),
   fileCacheStalenessRule.2 fileEnvC cachedOneFileState [] [] "a.txt" "t2"
    (by decide) rfl (by decide) (by decide) (by decide)⟩

end Vibe
